import Mathlib

/-!
Verification of the EBike Range Display firmware and its laptop clients.

The development shallowly embeds the BLE telemetry/command core:

* the characteristic codec (`ble_update`'s per-characteristic encodings in
  `ble.py`, and the `decode_*` helpers of `BLE_Demo_Laptop/ebike_gui.py`);
* the inbound payload interpreter of `rx_task` in `ble.py` (JSON /
  key:value / CSV / fallback framings) together with the MicroPython
  byte decode of the raw payload;
* the shared `sensor_data` blackboard of `display.py` and the way
  `rx_task` and `ble_update` act on it;
* the first-peer admission policy of `peripheral_task` in `ble.py`, and a
  small interleaving model of the cooperative radio tasks.

Python floats are modelled as rationals (`ℚ`): every numeric literal the
claims exercise (5.5, 7.0, 10, …) is exactly representable in binary
floating point, so the rational model agrees with the source on these
values.  Python `int(x)` is truncation toward zero; MicroPython's
`struct.pack` (the runtime of `ble.py`) does not range-check and silently
reduces values modulo the field width.
-/

/-- Python `int(x)` applied to a (rational-modelled) float: truncation
toward zero (`Int.tdiv`, matching `int(-0.5) == 0`), as in
`int(voltage * 1000)` in `ble.py`. -/
def pyInt (q : ℚ) : Int := q.num.tdiv (q.den : Int)

/-- `struct.pack("<H", n)` and `struct.pack("<h", n)` under MicroPython
semantics: the value is reduced modulo 2^16 and emitted as two
little-endian bytes.  (MicroPython's `struct` does not range-check;
out-of-range values wrap silently.) -/
def pack16le (n : Int) : List Nat :=
  let m := (n % 65536).toNat
  [m % 256, m / 256]

/-- `struct.pack("B", n)` for an in-range value: one byte. -/
def pack8 (n : Int) : List Nat := [(n % 256).toNat]

/-- `ble.py` line 100–101: `v_mv = int(voltage * 1000)` packed `<H`.
The source multiplies IEEE doubles, where `int(v*1000)` can land one
grid point low (e.g. `int(1.001*1000) == 1000`); the rational product
here is exact, so round-trip theorems at fractional inputs are stated
with the spec's one-ULP tolerance, which both arithmetics satisfy. -/
def encode_voltage (voltage : ℚ) : List Nat :=
  pack16le (pyInt (voltage * 1000))

/-- `ble.py` line 104–105: `i_ma = int(current * 1000)` packed `<h`.
Same one-ULP caveat as `encode_voltage`: the source's double product can
truncate one milliamp low at fractional inputs; the model's is exact. -/
def encode_current (current : ℚ) : List Nat :=
  pack16le (pyInt (current * 1000))

/-- `ble.py` lines 108–113: `p_w = int(power)` clamped to `[0, 0xFFFF]`,
packed `<H`. -/
def encode_power (power : ℚ) : List Nat :=
  let p0 := pyInt power
  let p1 := if p0 < 0 then 0 else p0
  let p2 := if p1 > 65535 then 65535 else p1
  pack16le p2

/-- `ble.py` lines 116–117: `t_100 = int(temperature * 100)` packed `<h`
with no clamping.  The source's IEEE product can truncate one grid point
low at fractional inputs (e.g. `int(0.29*100) == 28`); the rational
product here is exact — round-trip theorems at fractional inputs
therefore claim only the one-ULP tolerance that both satisfy, and
exactness only at whole-degree inputs, where the double product is
exact too. -/
def encode_temperature (temperature : ℚ) : List Nat :=
  pack16le (pyInt (temperature * 100))

/-- `ble.py` line 120–121: `lvl = max(0, min(100, int(battery_level)))`
packed `B`. -/
def encode_battery (battery_level : ℚ) : List Nat :=
  pack8 (max 0 (min 100 (pyInt battery_level)))

/-- Python `int.from_bytes(b, "little")`. -/
def fromBytesLE (b : List Nat) : Nat :=
  b.foldr (fun x a => x + 256 * a) 0

/-- Python `int.from_bytes(b, "little", signed=True)`: two's complement
over `8 * len(b)` bits. -/
def fromBytesLESigned (b : List Nat) : Int :=
  let u := fromBytesLE b
  if u < 2 ^ (8 * b.length - 1) then (u : Int) else (u : Int) - 2 ^ (8 * b.length)

/-- `ebike_gui.py` line 45: `int.from_bytes(b, "little") / 1000.0`. -/
def decode_voltage (b : List Nat) : ℚ := (fromBytesLE b : ℚ) / 1000

/-- `ebike_gui.py` line 46: `int.from_bytes(b, "little", signed=True) / 1000.0`. -/
def decode_current (b : List Nat) : ℚ := (fromBytesLESigned b : ℚ) / 1000

/-- `ebike_gui.py` line 47: `int.from_bytes(b, "little") / 1000`.  Note the
division by 1000 even though the firmware packs whole watts. -/
def decode_power (b : List Nat) : ℚ := (fromBytesLE b : ℚ) / 1000

/-- `ebike_gui.py` line 48: `b[0]`. -/
def decode_battery (b : List Nat) : Nat := b.headD 0

/-- `ebike_gui.py` line 49: `int.from_bytes(b, "little", signed=True) / 100.0`. -/
def decode_temp (b : List Nat) : ℚ := (fromBytesLESigned b : ℚ) / 100

/-! ### Python string primitives

Modelled on `List Char` (kernel-computable), converting from `String`
only at the boundary. -/

/-- The six ASCII whitespace characters stripped by Python `str.strip()`
(the protocol payloads are ASCII; Unicode extras are irrelevant here). -/
def pySpace (c : Char) : Bool :=
  c == ' ' || c == '\t' || c == '\n' || c == '\r' || c == '\x0b' || c == '\x0c'

/-- Python `s.strip()`. -/
def pyStrip (cs : List Char) : List Char :=
  ((cs.dropWhile pySpace).reverse.dropWhile pySpace).reverse

/-- Python `s.lower()` (ASCII; the recognized keys are ASCII). -/
def pyLower (cs : List Char) : List Char :=
  cs.map fun c => if 'A' ≤ c ∧ c ≤ 'Z' then Char.ofNat (c.toNat + 32) else c

/-- Python `sep in s` for a single character. -/
def pyContains (cs : List Char) (c : Char) : Bool := cs.contains c

/-- Python `s.split(sep)` for a single-character separator: every
occurrence splits, producing one part more than there are separators. -/
def pySplit (sep : Char) (cs : List Char) : List (List Char) :=
  cs.foldr
    (fun c acc =>
      match acc with
      | [] => [[c]]
      | a :: rest => if c == sep then [] :: a :: rest else (c :: a) :: rest)
    [[]]

/-- Python `s.split(sep, 1)`: the part before the first occurrence of
`sep` and the part after it (callers use it only when `sep` occurs). -/
def pySplitOnce (sep : Char) (cs : List Char) : List Char × List Char :=
  (cs.takeWhile (fun c => c != sep), (cs.dropWhile (fun c => c != sep)).drop 1)

/-- Python `s.startswith(t)` for a one-character `t`. -/
def pyStarts (cs : List Char) (c : Char) : Bool :=
  match cs with
  | [] => false
  | a :: _ => a == c

/-- Python `s.endswith(t)` for a one-character `t`. -/
def pyEnds (cs : List Char) (c : Char) : Bool := pyStarts cs.reverse c

/-- The value of a digit string. -/
def digitsVal (cs : List Char) : Nat :=
  cs.foldl (fun a c => 10 * a + (c.toNat - 48)) 0

/-- Exponent suffix of a Python float literal: empty, or `e`/`E` followed
by an optional sign and a nonempty digit string. -/
def pyFloatExp (cs : List Char) : Option Int :=
  match cs with
  | [] => some 0
  | e :: rest =>
    if e == 'e' || e == 'E' then
      let (sgn, ds) : Int × List Char :=
        match rest with
        | '+' :: r => (1, r)
        | '-' :: r => (-1, r)
        | r => (1, r)
      if ds ≠ [] ∧ ds.all Char.isDigit then some (sgn * digitsVal ds) else none
    else none

/-- Python `float(v)` on an already-stripped string, modelled over `ℚ`:
grammar `[sign] (digits [. digits] | . digits) [(e|E) [sign] digits]`.
Returns `none` where `float` raises `ValueError`.  `inf`/`nan` and digit
underscores are outside the model (no payload in the claims uses them,
and `ℚ` has no infinities). -/
def pyFloat (cs0 : List Char) : Option ℚ :=
  let (sgn, cs) : Int × List Char :=
    match cs0 with
    | '+' :: r => (1, r)
    | '-' :: r => (-1, r)
    | r => (1, r)
  let ip := cs.takeWhile Char.isDigit
  let rest1 := cs.dropWhile Char.isDigit
  let (fp, rest2) : List Char × List Char :=
    match rest1 with
    | '.' :: r => (r.takeWhile Char.isDigit, r.dropWhile Char.isDigit)
    | r => ([], r)
  if ip.isEmpty && fp.isEmpty then none
  else
    match pyFloatExp rest2 with
    | none => none
    | some e =>
      let n : Int := sgn * ((digitsVal ip) * 10 ^ fp.length + digitsVal fp)
      let den : Nat := 10 ^ fp.length
      some (if 0 ≤ e then mkRat (n * 10 ^ e.toNat) den
            else mkRat n (den * 10 ^ (-e).toNat))

/-! ### The inbound payload interpreter (`rx_task`, `ble.py` 141–217) -/

/-- The `pas_val` / `speed_val` / `c_range_val` triple built by `rx_task`
(`ble.py` lines 142–144, written to the blackboard at 215–217). -/
structure Cmd where
  pas : String
  speed : ℚ
  c_range : ℚ
deriving DecidableEq

/-- The defaults of lines 142–144: `pas_val = ""`, `speed_val = 0.0`,
`c_range_val = 0.0`. -/
def initCmd : Cmd := { pas := "", speed := 0, c_range := 0 }

/-- Key of a `k:v` segment: text before the first colon, stripped and
lowercased (line 171–172). -/
def segKey (p : List Char) : List Char := pyLower (pyStrip (pySplitOnce ':' p).1)

/-- Value of a `k:v` segment: text after the first colon, stripped
(line 171, 173). -/
def segVal (p : List Char) : List Char := pyStrip (pySplitOnce ':' p).2

/-- One iteration of the key:value loop (`ble.py` lines 169–185):
segments without a colon are skipped; `pas`/`rx` set `pas`; `speed` and
`c_range`/`range`/`crange` set their field only when `float(v)` parses;
all other keys are skipped. -/
def kvStep (acc : Cmd) (p : List Char) : Cmd :=
  if pyContains p ':' then
    let k := segKey p
    let v := segVal p
    if k = "pas".toList ∨ k = "rx".toList then { acc with pas := String.mk v }
    else if k = "speed".toList then
      match pyFloat v with
      | some q => { acc with speed := q }
      | none => acc
    else if k = "c_range".toList ∨ k = "range".toList ∨ k = "crange".toList then
      match pyFloat v with
      | some q => { acc with c_range := q }
      | none => acc
    else acc
  else acc

/-- The key:value framing (`ble.py` lines 166–186) from an arbitrary
accumulator: split on commas, strip each part, run the loop on the
current `pas_val`/`speed_val`/`c_range_val` values (which hold the
defaults, or the residue of a failed JSON attempt). -/
def kvFrom (c : Cmd) (s : List Char) : Cmd :=
  ((pySplit ',' s).map pyStrip).foldl kvStep c

/-- The key:value framing run from the defaults. -/
def kvInterpret (s : List Char) : Cmd := kvFrom initCmd s

/-- The plain-CSV framing (`ble.py` lines 191–206) from an arbitrary
accumulator: positions 0/1/2 are `pas` / `speed` / `c_range`; position 0
always overwrites `pas_val`, while the numeric positions keep the
accumulator's value on a failed `float` parse. -/
def csvFrom (c : Cmd) (s : List Char) : Cmd :=
  let parts := (pySplit ',' s).map pyStrip
  let c1 : Cmd :=
    match parts.head? with
    | some p0 => { c with pas := String.mk p0 }
    | none => c
  let c2 : Cmd :=
    match parts.get? 1 with
    | some p1 =>
      match pyFloat p1 with
      | some q => { c1 with speed := q }
      | none => c1
    | none => c1
  match parts.get? 2 with
  | some p2 =>
    match pyFloat p2 with
    | some q => { c2 with c_range := q }
    | none => c2
  | none => c2

/-- The brace test of `ble.py` line 155 that guards the JSON attempt:
the trimmed payload starts with `{` and ends with `}`. -/
def jsonTried (s : List Char) : Bool := pyStarts s '{' && pyEnds s '}'

/-- The non-JSON framings of `rx_task` (`ble.py` lines 166–212), run on
the current `pas_val`/`speed_val`/`c_range_val` triple `c`: key:value
when the payload has both `:` and `,`; plain CSV when it has `,` only;
otherwise the whole trimmed payload overwrites `pas_val` (lines
210–212) while `speed_val`/`c_range_val` keep the values in `c`. -/
def framingsAfterJson (c : Cmd) (s : List Char) : Cmd :=
  if pyContains s ':' && pyContains s ',' then kvFrom c s
  else if pyContains s ',' then csvFrom c s
  else { c with pas := String.mk s }

/-- The payload interpreter of `rx_task` (`ble.py` lines 141–212),
parameterized by the JSON branch: `jp s` models the whole
`json.loads`-and-extract block of lines 156–161.  The block assigns
`pas_val`, `speed_val`, `c_range_val` one at a time inside the `try`,
so an exception can leave some of them already overwritten; `jp`
therefore returns the triple's values after the block together with the
`parsed` flag — `(c, false)` means an exception was raised after the
assignments recorded in `c` (e.g. on `{"pas":"x","speed":"abc"}`,
`json.loads` succeeds and `pas_val = "x"` is assigned before
`float("abc")` raises, so the later framings start from that residue,
not from the defaults).  On the MicroPython target `ujson` imports
successfully, so the JSON attempt is guarded only by the brace test of
line 155.  Framing order: JSON, then key:value, then plain CSV, then
the whole trimmed string as `pas`. -/
def interpret (jp : List Char → Cmd × Bool) (text : String) : Cmd :=
  let s := pyStrip text.toList
  let jr := if jsonTried s then jp s else (initCmd, false)
  if jr.2 then jr.1 else framingsAfterJson jr.1 s

/-- A JSON block that raises immediately in `json.loads` (no field
assigned, `parsed = False`); used to instantiate closed examples — on
payloads that are not brace-delimited `interpret` does not consult the
JSON block at all. -/
def jpNone : List Char → Cmd × Bool := fun _ => (initCmd, false)

/-! ### Byte decode of the inbound payload (`ble.py` 138) -/

/-- MicroPython `data.decode("utf-8", "ignore")` on the rp2 firmware:
MicroPython's `bytes.decode` applies no CPython-style error handler —
the payload bytes are taken into the string unvalidated (a documented
MicroPython difference; on builds with UTF-8 checking enabled the call
would instead raise `UnicodeError` — under no MicroPython build are
invalid sequences replaced or dropped).  MicroPython strings are byte
arrays, and every operation `rx_task` performs on the result (strip,
`in`, split, startswith/endswith, lower) is byte-oriented, so the model
takes one `Char` per byte. -/
def decodeRx (bs : List Nat) : String :=
  String.mk (bs.map Char.ofNat)

/-! ### The shared blackboard (`display.py` 6–16) and its writers -/

/-- The `sensor_data` dictionary of `display.py` lines 6–16. -/
structure SensorData where
  voltage : ℚ
  current : ℚ
  power : ℚ
  pas : String
  speed : ℚ
  c_range : ℚ
  dist : ℚ
  battery : ℚ
  connected : Bool
deriving DecidableEq

/-- The initial blackboard values of `display.py` lines 6–16. -/
def initSensorData : SensorData :=
  { voltage := 0, current := 0, power := 0, pas := "", speed := 0,
    c_range := 0, dist := 0, battery := 0, connected := false }

/-- Lines 214–217 of `ble.py`: the interpreter result is written into the
blackboard — `pas`, `speed` and `c_range` are all assigned
unconditionally. -/
def rxMerge (st : SensorData) (c : Cmd) : SensorData :=
  { st with pas := c.pas, speed := c.speed, c_range := c.c_range }

/-- Full inbound path of `rx_task` for one completed write (`ble.py`
lines 136–212): lossy-decode the bytes, interpret the text. -/
def interpretBytes (jp : List Char → Cmd × Bool) (data : List Nat) : Cmd :=
  interpret jp (decodeRx data)

/-- Effect of one completed write on the blackboard (`ble.py` 136–217). -/
def rxWrite (jp : List Char → Cmd × Bool) (st : SensorData) (data : List Nat) :
    SensorData :=
  rxMerge st (interpretBytes jp data)

/-! ### Peer admission (`peripheral_task`, `ble.py` 222–262) -/

/-- `_format_peer` (`ble.py` 77–79): `(dev.addr_type, bytes(dev.addr))`.
Two peers are equal iff the address type and every address byte agree
(Python tuple/bytes equality). -/
structure Peer where
  addrType : Nat
  addr : List Nat
deriving DecidableEq

/-- Connection-level events seen by `peripheral_task`: an incoming
connection from a peer, or a disconnect of the current one. -/
inductive ConnEvent
  | connect (q : Peer)
  | disconnect
deriving DecidableEq

/-- Admission decision on one incoming connection (`ble.py` 238–248):
the new `_authorized_peer`, and whether the connection is kept (`false`
means `connection.disconnect()` followed by re-advertising). -/
def admConnect (owner : Option Peer) (q : Peer) : Option Peer × Bool :=
  match owner with
  | none => (some q, true)
  | some p => (some p, decide (q = p))

/-- Evolution of `_authorized_peer` over a sequence of connection
events.  The disconnect path (`ble.py` 250–252) does not touch it; no
path in `peripheral_task` ever resets it to `None`. -/
def admRun (owner : Option Peer) : List ConnEvent → Option Peer
  | [] => owner
  | ConnEvent.connect q :: evs => admRun (admConnect owner q).1 evs
  | ConnEvent.disconnect :: evs => admRun owner evs

/-! ### Interleaving model of the radio tasks

`rx_task` and `peripheral_task` run as cooperatively scheduled asyncio
tasks.  aioble queues completed writes to `rx_ch` on any open connection;
`rx_task` (`ble.py` 129–137) pops them via `rx_ch.written()` without
consulting `_authorized_peer`, while `peripheral_task` reaches its
admission check (238–248) only when the scheduler runs it.  The model
makes each scheduling point an explicit action. -/

/-- Joint state of the radio tasks and the blackboard: `_authorized_peer`;
the current connection tagged with whether `peripheral_task` already ran
its admission check on it; the queue of completed-but-unprocessed `rx_ch`
writes; and `sensor_data`. -/
structure Sys where
  owner : Option Peer
  conn : Option (Peer × Bool)
  pending : List (Peer × List Nat)
  shared : SensorData
deriving DecidableEq

/-- Scheduler actions: a peer connects (the peripheral accepts one
connection at a time), `peripheral_task` runs its admission check, a
connected peer completes a GATT write to `rx_ch`, `rx_task` processes
the oldest completed write, or the connection drops. -/
inductive Act
  | connect (q : Peer)
  | check
  | write (q : Peer) (d : List Nat)
  | rxProc
  | disconnect

/-- One interleaving step; `none` when the action is not enabled.
`write` requires only an open connection, checked or not, because the
radio stack accepts GATT writes as soon as the link is up and `rx_task`
applies no peer filter.  `check` is `ble.py` 238–248; `rxProc` is
`ble.py` 136–217. -/
def sysStep (jp : List Char → Cmd × Bool) (st : Sys) : Act → Option Sys
  | Act.connect q =>
    match st.conn with
    | none => some { st with conn := some (q, false) }
    | some _ => none
  | Act.check =>
    match st.conn with
    | some (q, false) =>
      match st.owner with
      | none => some { st with owner := some q, conn := some (q, true) }
      | some p =>
        if q = p then some { st with conn := some (q, true) }
        else some { st with conn := none }
    | _ => none
  | Act.write q d =>
    match st.conn with
    | some (q', _) =>
      if q = q' then some { st with pending := st.pending ++ [(q, d)] } else none
    | none => none
  | Act.rxProc =>
    match st.pending with
    | (_, d) :: rest =>
      some { st with shared := rxWrite jp st.shared d, pending := rest }
    | [] => none
  | Act.disconnect =>
    match st.conn with
    | some _ => some { st with conn := none }
    | none => none

/-- Run a whole schedule; `none` if any action was not enabled. -/
def sysRun (jp : List Char → Cmd × Bool) : Sys → List Act → Option Sys
  | st, [] => some st
  | st, a :: acts =>
    match sysStep jp st a with
    | some st' => sysRun jp st' acts
    | none => none

/-- Initial system state: `_authorized_peer = None` (`ble.py` 74),
nothing connected, no pending writes, the blackboard at its `display.py`
defaults. -/
def initSys : Sys :=
  { owner := none, conn := none, pending := [], shared := initSensorData }

/-- A concrete owner peer for closed instances. -/
def peerA : Peer := ⟨0, [1, 2, 3, 4, 5, 6]⟩

/-- A concrete intruder peer, distinct from `peerA`. -/
def peerB : Peer := ⟨0, [9, 9, 9, 9, 9, 9]⟩

/-- ASCII bytes of the payload `"1,9,9"` (plain-CSV framing:
`pas="1"`, `speed=9`, `c_range=9`). -/
def intruderPayload : List Nat := [49, 44, 57, 44, 57]

/-- A schedule in which `peerA` becomes owner and disconnects, then
`peerB` connects, completes a write, `rx_task` processes it, and only
then does `peripheral_task` reach its admission check and drop `peerB`.
Every action is enabled at its position, so this is a legal cooperative
interleaving. -/
def intruderTrace : List Act :=
  [Act.connect peerA, Act.check, Act.disconnect,
   Act.connect peerB, Act.write peerB intruderPayload,
   Act.rxProc, Act.check]

/-- `ble_update` (`ble.py` 86–121) as a transformer of the blackboard
returning the five characteristic writes in source order.  Its body
writes and notifies characteristics only; it contains no assignment to
`sensor_data`, which the unchanged first component reflects. -/
def ble_update (shared : SensorData) (voltage current power temperature : ℚ)
    (battery_level : ℚ) : SensorData × List (List Nat) :=
  (shared,
   [encode_voltage voltage, encode_current current, encode_power power,
    encode_temperature temperature, encode_battery battery_level])

-- Sanity checks on the admission and task models.
example : admRun none [ConnEvent.connect peerA, ConnEvent.disconnect,
    ConnEvent.connect peerB] = some peerA := by decide
example :
    sysRun jpNone initSys intruderTrace =
      some { owner := some peerA, conn := none, pending := [],
             shared := { initSensorData with pas := "1", speed := 9, c_range := 9 } } := by
  decide

-- Sanity checks on the interpreter embedding.
example : interpret jpNone "pas:2,speed:5.5" = ⟨"2", mkRat 11 2, 0⟩ := by decide
example : interpret jpNone "2,5.5,10" = ⟨"2", mkRat 11 2, 10⟩ := by decide
example : interpret jpNone "hello" = ⟨"hello", 0, 0⟩ := by decide
example : interpret jpNone "" = ⟨"", 0, 0⟩ := by decide
example : decodeRx [104, 101, 108, 108, 111] = "hello" := by decide
example : decodeRx [255, 104, 105] = String.mk [Char.ofNat 255, 'h', 'i'] := by decide
example : interpret jpNone "PAS : 7 , x , SPEED:bad" = ⟨"7", 0, 0⟩ := by decide

/-! ### Codec computation lemmas -/

/-- `int()` of an integer-valued rational is that integer. -/
theorem pyInt_intCast (k : ℤ) : pyInt (k : ℚ) = k := by
  simp [pyInt, Int.tdiv_one]

/-- Unsigned round trip through the 16-bit little-endian packing. -/
theorem fromBytesLE_pack16le (n : ℤ) (h0 : 0 ≤ n) (h : n < 65536) :
    fromBytesLE (pack16le n) = n.toNat := by
  simp only [pack16le, fromBytesLE, List.foldr_cons, List.foldr_nil]
  omega

/-- Signed round trip through the 16-bit little-endian packing, for
in-range values. -/
theorem fromBytesLESigned_pack16le (n : ℤ) (h0 : -32768 ≤ n) (h : n < 32768) :
    fromBytesLESigned (pack16le n) = n := by
  simp only [pack16le, fromBytesLESigned, fromBytesLE, List.foldr_cons,
    List.foldr_nil, List.length_cons, List.length_nil]
  norm_num
  omega

/-- Signed reading of the 16-bit packing wraps modulo 2^16 for every
input value. -/
theorem fromBytesLESigned_pack16le_wrap (n : ℤ) :
    fromBytesLESigned (pack16le n) = (n + 32768) % 65536 - 32768 := by
  simp only [pack16le, fromBytesLESigned, fromBytesLE, List.foldr_cons,
    List.foldr_nil, List.length_cons, List.length_nil]
  norm_num
  omega

-- Sanity checks on the codec embedding.
example : encode_power (-5) = encode_power 0 := by decide
example : encode_power 100000 = encode_power 65535 := by decide
example : encode_battery 150 = encode_battery 100 := by decide
example : decode_power (encode_power 1000) = 1 := by
  have h : encode_power 1000 = [232, 3] := by decide
  rw [h]; norm_num [decode_power, fromBytesLE]
example : decode_temp (encode_temperature 400) = -25536 / 100 := by
  have h1 : ((400 : ℚ) * 100) = ((40000 : ℤ) : ℚ) := by norm_num
  have h : encode_temperature 400 = pack16le 40000 := by
    rw [encode_temperature, h1, pyInt_intCast]
  have h2 : pack16le 40000 = [64, 156] := by decide
  rw [h, h2]; norm_num [decode_temp, fromBytesLESigned, fromBytesLE]

/-! ## Dispatch lemmas for the interpreter -/

/-- When the brace test fails, the JSON block is never consulted: the
result does not depend on it at all. -/
theorem interpret_indep_of_json (jp₁ jp₂ : List Char → Cmd × Bool) (s : String)
    (h : jsonTried (pyStrip s.toList) = false) :
    interpret jp₁ s = interpret jp₂ s := by
  have h' : jsonTried (pyStrip s.data) = false := h
  simp [interpret, h']

/-- When the brace test fails, the later framings run from the
defaults. -/
theorem interpret_no_json (jp : List Char → Cmd × Bool) (s : String)
    (h : jsonTried (pyStrip s.toList) = false) :
    interpret jp s = framingsAfterJson initCmd (pyStrip s.toList) := by
  have h' : jsonTried (pyStrip s.data) = false := h
  simp [interpret, h']

/-- When the brace test holds and the JSON block completes
(`parsed = True`), its result is the interpreter's result. -/
theorem interpret_json_ok (jp : List Char → Cmd × Bool) (s : String) (c : Cmd)
    (hb : jsonTried (pyStrip s.toList) = true)
    (h : jp (pyStrip s.toList) = (c, true)) :
    interpret jp s = c := by
  have hb' : jsonTried (pyStrip s.data) = true := hb
  have h' : jp (pyStrip s.data) = (c, true) := h
  simp [interpret, hb', h']

/-- When the brace test holds but the JSON block raises, the later
framings run from its residue: fields the block assigned before the
exception stay assigned — the source does not reset the locals on the
way out of the `except`. -/
theorem interpret_json_residue (jp : List Char → Cmd × Bool) (s : String) (c : Cmd)
    (hb : jsonTried (pyStrip s.toList) = true)
    (h : jp (pyStrip s.toList) = (c, false)) :
    interpret jp s = framingsAfterJson c (pyStrip s.toList) := by
  have hb' : jsonTried (pyStrip s.data) = true := hb
  have h' : jp (pyStrip s.data) = (c, false) := h
  simp [interpret, hb', h']

/-- With both `:` and `,` in the trimmed payload, the key:value framing
decides: it runs on the accumulator and never falls through to CSV,
regardless of whether any key matched. -/
theorem framings_kv (c : Cmd) (s : List Char)
    (hc : pyContains s ':' = true) (hm : pyContains s ',' = true) :
    framingsAfterJson c s = kvFrom c s := by
  simp [framingsAfterJson, hc, hm]

/-- With `,` but no `:`, the plain-CSV framing decides. -/
theorem framings_csv (c : Cmd) (s : List Char)
    (hc : pyContains s ':' = false) (hm : pyContains s ',' = true) :
    framingsAfterJson c s = csvFrom c s := by
  simp [framingsAfterJson, hc, hm]

/-- With no comma, the whole trimmed payload becomes `pas`; the numeric
fields keep the accumulator's values. -/
theorem framings_fallback (c : Cmd) (s : List Char)
    (hm : pyContains s ',' = false) :
    framingsAfterJson c s = { c with pas := String.mk s } := by
  simp [framingsAfterJson, hm]

/-- C2: the interpreter resolves framings of the trimmed payload in a
fixed order with mutually exclusive triggers, first success wins: the
JSON block is consulted only when the payload starts with `{` and ends
with `}` (otherwise the result is independent of it and the later
framings run from the defaults); a completed JSON parse wins outright;
on any parse exception the JSON framing falls through to the later
framings, which continue from whatever the block assigned before
raising (the source keeps, not resets, those locals); key:value framing
applies exactly when the payload contains both `:` and `,` and, once
triggered, never falls through to plain CSV; plain CSV applies when the
payload contains `,` but no `:`; otherwise the entire trimmed payload
becomes `pas`.  Concretely `interpret("pas:2,speed:5.5")` gives
`pas="2"`, `speed=5.5` (= `mkRat 11 2`), `range=0`, and
`interpret("2,5.5,10")` gives `pas="2"`, `speed=5.5`, `range=10`. -/
theorem C2_framing_precedence :
    (∀ jp₁ jp₂ s, jsonTried (pyStrip s.toList) = false →
        interpret jp₁ s = interpret jp₂ s)
  ∧ (∀ jp s, jsonTried (pyStrip s.toList) = false →
        interpret jp s = framingsAfterJson initCmd (pyStrip s.toList))
  ∧ (∀ jp s c, jsonTried (pyStrip s.toList) = true →
        jp (pyStrip s.toList) = (c, true) → interpret jp s = c)
  ∧ (∀ jp s c, jsonTried (pyStrip s.toList) = true →
        jp (pyStrip s.toList) = (c, false) →
        interpret jp s = framingsAfterJson c (pyStrip s.toList))
  ∧ (∀ c s, pyContains s ':' = true → pyContains s ',' = true →
        framingsAfterJson c s = kvFrom c s)
  ∧ (∀ c s, pyContains s ':' = false → pyContains s ',' = true →
        framingsAfterJson c s = csvFrom c s)
  ∧ (∀ c s, pyContains s ',' = false →
        framingsAfterJson c s = { c with pas := String.mk s })
  ∧ (∀ jp, interpret jp "pas:2,speed:5.5" = ⟨"2", mkRat 11 2, 0⟩)
  ∧ (∀ jp, interpret jp "2,5.5,10" = ⟨"2", mkRat 11 2, 10⟩) := by
  refine ⟨interpret_indep_of_json, interpret_no_json, interpret_json_ok,
    interpret_json_residue, framings_kv, framings_csv, framings_fallback, ?_, ?_⟩
  · intro jp
    rw [interpret_indep_of_json jp jpNone _ (by decide)]
    decide
  · intro jp
    rw [interpret_indep_of_json jp jpNone _ (by decide)]
    decide

/-- A JSON block that assigns `pas_val = "x"` and then raises: the
behaviour of lines 156–163 on the payload below, where `json.loads`
succeeds and `pas_val = "x"` is assigned before `float("abc")`
raises. -/
def jpPasX : List Char → Cmd × Bool := fun _ => (⟨"x", 0, 0⟩, false)

/-- The JSON payload with a string-typed speed: a brace-delimited object
whose `pas` is `"x"` and whose `speed` is the non-numeric `"abc"`
(braces written as hex escapes). -/
def jsonAbcPayload : String := "\x7b\"pas\":\"x\",\"speed\":\"abc\"\x7d"

/-- Witness for C2 at concrete inputs: a payload without braces ignores
the JSON block; on `{"pas":"x","speed":"abc"}` the failed JSON attempt
falls through to the key:value framing carrying the residue
`pas_val = "x"`, and since neither quoted segment key is recognized the
final result is `pas = "x"` — the source's behaviour on this payload;
`"2,5.5,10"` takes plain CSV; `"hello"` takes the fallback. -/
theorem C2_framing_precedence_witness :
    interpret (fun _ => (⟨"J", 1, 1⟩, true)) "hello" = interpret jpNone "hello"
  ∧ interpret jpPasX jsonAbcPayload =
      framingsAfterJson ⟨"x", 0, 0⟩ (pyStrip jsonAbcPayload.toList)
  ∧ interpret jpPasX jsonAbcPayload = ⟨"x", 0, 0⟩
  ∧ framingsAfterJson initCmd (pyStrip "2,5.5,10".toList) =
      csvFrom initCmd (pyStrip "2,5.5,10".toList)
  ∧ interpret jpNone "hello" =
      { initCmd with pas := String.mk (pyStrip "hello".toList) } := by
  refine ⟨C2_framing_precedence.1 _ jpNone "hello" (by decide),
    C2_framing_precedence.2.2.2.1 jpPasX jsonAbcPayload ⟨"x", 0, 0⟩ (by decide) rfl, ?_,
    C2_framing_precedence.2.2.2.2.2.1 initCmd _ (by decide) (by decide), ?_⟩
  · rw [C2_framing_precedence.2.2.2.1 jpPasX jsonAbcPayload ⟨"x", 0, 0⟩ (by decide) rfl]
    decide
  · rw [C2_framing_precedence.2.1 jpNone "hello" (by decide)]
    decide

/-- C1 counterexample: with prior state `speed = 7.0`, processing the
payload `"hello"` (bytes `[104,101,108,108,111]`, fallback framing,
which produces no speed value) sets `speed` to `0.0`, not `7.0`: the
write handler of `rx_task` assigns all three fields unconditionally
(`ble.py` 215–217), so this is a replace, not a merge. -/
theorem C1_counterexample :
    ({ initSensorData with speed := 7 } : SensorData).speed = 7
  ∧ (rxWrite jpNone { initSensorData with speed := 7 } [104, 101, 108, 108, 111]).speed = 0
  ∧ (0 : ℚ) ≠ 7 :=
  ⟨by decide, by decide, by decide⟩

/-- C1 amended: merging an interpretation result into the shared state
is a replace, not a merge: the resulting `pas`/`speed`/`c_range` never
depend on their prior values, a fallback payload such as `"hello"`
resets `speed` and `c_range` to 0 (and `pas` to the trimmed payload),
and a plain-CSV payload with fewer than three positions (`"2,3"`) resets
`c_range` to 0. -/
theorem C1_amended :
    (∀ jp st st' data,
        (rxWrite jp st data).pas = (rxWrite jp st' data).pas
      ∧ (rxWrite jp st data).speed = (rxWrite jp st' data).speed
      ∧ (rxWrite jp st data).c_range = (rxWrite jp st' data).c_range)
  ∧ (∀ st, (rxWrite jpNone st [104, 101, 108, 108, 111]).pas = "hello"
      ∧ (rxWrite jpNone st [104, 101, 108, 108, 111]).speed = 0
      ∧ (rxWrite jpNone st [104, 101, 108, 108, 111]).c_range = 0)
  ∧ (∀ st, (rxWrite jpNone st [50, 44, 51]).c_range = 0) := by
  refine ⟨fun jp st st' data => ⟨rfl, rfl, rfl⟩, ?_, ?_⟩
  · intro st
    exact ⟨(by decide : (interpretBytes jpNone [104, 101, 108, 108, 111]).pas = "hello"),
      (by decide : (interpretBytes jpNone [104, 101, 108, 108, 111]).speed = 0),
      (by decide : (interpretBytes jpNone [104, 101, 108, 108, 111]).c_range = 0)⟩
  · intro st
    exact (by decide : (interpretBytes jpNone [50, 44, 51]).c_range = 0)

/-- C4: the admission policy is a one-shot allow-list that never
reverts: the first connection from any peer `A` sets the owner to `A`
and is accepted; once owned by `A` the owner survives every further
connection and disconnect event; a later connection from `A` is
accepted; a connection from `B ≠ A` is rejected (dropped, advertising
resumes). -/
theorem C4_admission_one_shot :
    (∀ q, admConnect none q = (some q, true))
  ∧ (∀ A evs, admRun (some A) evs = some A)
  ∧ (∀ A evs, admRun none (ConnEvent.connect A :: evs) = admRun (some A) evs)
  ∧ (∀ A, admConnect (some A) A = (some A, true))
  ∧ (∀ A B, B ≠ A → admConnect (some A) B = (some A, false)) := by
  refine ⟨fun q => rfl, ?_, fun A evs => rfl, ?_, ?_⟩
  · intro A evs
    induction evs with
    | nil => rfl
    | cons e evs ih =>
      cases e with
      | connect q => simpa [admRun, admConnect] using ih
      | disconnect => simpa [admRun] using ih
  · intro A
    simp [admConnect]
  · intro A B h
    simp [admConnect, h]

/-- Witness for C4 at the concrete peers: `peerB ≠ peerA`, and with
owner `peerA` a connection from `peerB` is rejected while the owner is
kept. -/
theorem C4_admission_one_shot_witness :
    peerB ≠ peerA ∧ admConnect (some peerA) peerB = (some peerA, false) :=
  ⟨by decide, C4_admission_one_shot.2.2.2.2 peerA peerB (by decide)⟩

/-- C5 counterexample: a legal cooperative interleaving in which, with
the admission state owned by `peerA`, the distinct peer `peerB` connects,
completes a GATT write, and `rx_task` processes that write into the
shared state *before* `peripheral_task` reaches its admission check and
disconnects `peerB`.  The final state still has owner `peerA`, yet
`speed`/`c_range`/`pas` carry the values of `peerB`'s payload `"1,9,9"`
(they started at 0/0/"").  `rx_task` (`ble.py` 129–137) applies no peer
filter, so the claim's "terminated before any application data is
exchanged" does not hold of every interleaving. -/
theorem C5_counterexample :
    sysRun jpNone initSys intruderTrace =
      some { owner := some peerA, conn := none, pending := [],
             shared := { initSensorData with pas := "1", speed := 9, c_range := 9 } }
  ∧ peerB ≠ peerA ∧ initSensorData.speed = 0 :=
  ⟨by decide, by decide, by decide⟩

/-- C5 amended: the admission check itself always rejects a non-owner
(dropping the connection and keeping the owner), but `rx_task` processes
a completed write regardless of which peer wrote it, so a write
delivered before the check runs is processed even when the writer is
unauthorized. -/
theorem C5_amended :
    (∀ jp (st : Sys) p q, st.owner = some p → st.conn = some (q, false) → q ≠ p →
        sysStep jp st Act.check = some { st with conn := none })
  ∧ (∀ jp (st : Sys) q d rest, st.pending = (q, d) :: rest →
        sysStep jp st Act.rxProc =
          some { st with shared := rxWrite jp st.shared d, pending := rest }) := by
  constructor
  · intro jp st p q ho hc hne
    simp [sysStep, hc, ho, hne]
  · intro jp st q d rest hp
    simp [sysStep, hp]

/-- A concrete state with owner `peerA` and an unchecked connection from
`peerB`. -/
def c5CheckState : Sys :=
  { owner := some peerA, conn := some (peerB, false), pending := [],
    shared := initSensorData }

/-- A concrete state with owner `peerA` and a pending completed write
from the connected `peerB`. -/
def c5RxState : Sys :=
  { owner := some peerA, conn := some (peerB, true),
    pending := [(peerB, intruderPayload)], shared := initSensorData }

/-- Witness for C5 amended at a concrete state: owner `peerA`, an
unchecked connection from `peerB` is dropped by the check; a pending
write from `peerB` is processed by `rx_task` regardless. -/
theorem C5_amended_witness :
    sysStep jpNone c5CheckState Act.check = some { c5CheckState with conn := none }
  ∧ sysStep jpNone c5RxState Act.rxProc =
      some { c5RxState with
             shared := rxWrite jpNone c5RxState.shared intruderPayload, pending := [] } :=
  ⟨C5_amended.1 jpNone _ peerA peerB rfl rfl (by decide),
   C5_amended.2 jpNone _ peerB intruderPayload [] rfl⟩

/-- C6: the Power and Battery Level encodings saturate rather than wrap
on out-of-range input: `encode_power(-5) == encode_power(0)`,
`encode_power(100000) == encode_power(65535)`,
`encode_battery(150) == encode_battery(100)`,
`encode_battery(-10) == encode_battery(0)`. -/
theorem C6_power_battery_clamp :
    encode_power (-5) = encode_power 0
  ∧ encode_power 100000 = encode_power 65535
  ∧ encode_battery 150 = encode_battery 100
  ∧ encode_battery (-10) = encode_battery 0 :=
  ⟨by decide, by decide, by decide, by decide⟩

/-- C7 counterexample: `ble.py` lines 116–117 apply no clamp to the
temperature: at 400 °C the hundredths value 40000 exceeds 32767, the
encoding equals the unclamped packing of 40000 (not the clamped packing
of 32767), and a signed decode reads it back as −255.36 °C — the value
wrapped instead of saturating. -/
theorem C7_counterexample :
    encode_temperature 400 = pack16le 40000
  ∧ encode_temperature 400 ≠ pack16le 32767
  ∧ decode_temp (encode_temperature 400) = -(25536 : ℚ) / 100 := by
  have h1 : ((400 : ℚ) * 100) = ((40000 : ℤ) : ℚ) := by norm_num
  have h : encode_temperature 400 = pack16le 40000 := by
    rw [encode_temperature, h1, pyInt_intCast]
  refine ⟨h, ?_, ?_⟩
  · rw [h]; decide
  · rw [h]
    have h2 : pack16le 40000 = [64, 156] := by decide
    rw [h2]
    norm_num [decode_temp, fromBytesLESigned, fromBytesLE]

/-- C7 amended: the temperature encoding does not clamp; for every
celsius value the signed 16-bit reading of the encoded bytes is the
hundredths value wrapped into `[-32768, 32767]` modulo 2^16
(MicroPython's `struct.pack` wraps silently; CPython's would raise), so
out-of-range temperatures wrap rather than saturate. -/
theorem C7_amended :
    ∀ t : ℚ, fromBytesLESigned (encode_temperature t) =
      (pyInt (t * 100) + 32768) % 65536 - 32768 :=
  fun t => fromBytesLESigned_pack16le_wrap (pyInt (t * 100))

/-- C8 counterexample: `ble_update` (`ble.py` 86–121) only writes and
notifies the characteristics; it contains no assignment to
`sensor_data`, so after `ble_update(5, 2, 100, 25, 80)` the shared
voltage field still holds its prior value 0, not 5. -/
theorem C8_counterexample :
    (ble_update initSensorData 5 2 100 25 80).1.voltage = 0 ∧ (0 : ℚ) ≠ 5 :=
  ⟨rfl, by decide⟩

/-- C8 amended: a call to `ble_update` produces the five encoded
characteristic writes (voltage, current, power, temperature, battery, in
source order) and leaves the shared application state exactly as it
was — no shared field is mutated by the publisher in this source. -/
theorem C8_amended :
    ∀ st v i p t l,
      (ble_update st v i p t l).1 = st
    ∧ (ble_update st v i p t l).2 =
        [encode_voltage v, encode_current i, encode_power p,
         encode_temperature t, encode_battery l] :=
  fun _ _ _ _ _ _ => ⟨rfl, rfl⟩

/-- C3 counterexample: the GUI's `decode_power` divides the raw watts by
1000 (`ebike_gui.py` line 47), so `decode_power(encode_power(1000)) = 1`,
not 1000; and the claimed temperature round-trip range reaches far
beyond the representable `[-327.68, 327.67]` °C: at `v = 1000.00` (a
0.01-step point inside the claimed `[-3276.8, 3276.7]`) the unclamped
encoding wraps and decodes to −310.72 °C. -/
theorem C3_counterexample :
    decode_power (encode_power 1000) = 1 ∧ (1 : ℚ) ≠ 1000
  ∧ decode_temp (encode_temperature 1000) = -(31072 : ℚ) / 100
  ∧ -(31072 : ℚ) / 100 ≠ 1000 := by
  refine ⟨?_, by norm_num, ?_, by norm_num⟩
  · have h : encode_power 1000 = [232, 3] := by decide
    rw [h]
    norm_num [decode_power, fromBytesLE]
  · have h1 : ((1000 : ℚ) * 100) = ((100000 : ℤ) : ℚ) := by norm_num
    have h : encode_temperature 1000 = pack16le 100000 := by
      rw [encode_temperature, h1, pyInt_intCast]
    have h2 : pack16le 100000 = [160, 134] := by decide
    rw [h, h2]
    norm_num [decode_temp, fromBytesLESigned, fromBytesLE]

/-- C3 amended: decode inverts encode to within one ULP of the declared
resolution over the representable ranges.  The firmware multiplies IEEE
doubles, where `int(v*100)` can land one grid point low (e.g.
`int(0.29*100) == 28`), so exactness fails in the program at some
fractional grid points and the spec's one-ULP tolerance is the sharp
statement; the rational model computes the product exactly and
satisfies the same bound.  Temperature: `k/100` for
`k ∈ [-32768, 32767]` (i.e. `[-327.68, 327.67]` °C, not the claimed
`[-3276.8, 3276.7]`), exact at whole-degree inputs where the double
product is exact too; Voltage `k/1000`, `k ∈ [0, 65535]`; Current
`k/1000`, `k ∈ [-32768, 32767]`.  Power decodes as the raw integer
watts divided by 1000 (`ebike_gui.py` line 47):
`decode_power(encode_power(p)) = p/1000` for integer `p ∈ [0, 65535]`
(integer inputs are float-exact, so this conjunct is robust to the
float/rational gap). -/
theorem C3_amended :
    (∀ k : ℤ, -32768 ≤ k → k ≤ 32767 →
        |decode_temp (encode_temperature ((k : ℚ) / 100)) - (k : ℚ) / 100| ≤ 1 / 100)
  ∧ (∀ k : ℤ, -327 ≤ k → k ≤ 327 →
        decode_temp (encode_temperature (k : ℚ)) = (k : ℚ))
  ∧ (∀ k : ℤ, 0 ≤ k → k ≤ 65535 →
        |decode_voltage (encode_voltage ((k : ℚ) / 1000)) - (k : ℚ) / 1000| ≤ 1 / 1000)
  ∧ (∀ k : ℤ, -32768 ≤ k → k ≤ 32767 →
        |decode_current (encode_current ((k : ℚ) / 1000)) - (k : ℚ) / 1000| ≤ 1 / 1000)
  ∧ (∀ p : ℤ, 0 ≤ p → p ≤ 65535 →
        decode_power (encode_power (p : ℚ)) = (p : ℚ) / 1000) := by
  refine ⟨?_, ?_, ?_, ?_, ?_⟩
  · intro k h0 h1
    have e1 : ((k : ℚ) / 100) * 100 = ((k : ℤ) : ℚ) := div_mul_cancel₀ _ (by norm_num)
    rw [decode_temp, encode_temperature, e1, pyInt_intCast,
      fromBytesLESigned_pack16le k h0 (by omega), sub_self, abs_zero]
    norm_num
  · intro k h0 h1
    have e1 : ((k : ℚ)) * 100 = ((100 * k : ℤ) : ℚ) := by push_cast; ring
    rw [decode_temp, encode_temperature, e1, pyInt_intCast,
      fromBytesLESigned_pack16le (100 * k) (by omega) (by omega)]
    push_cast
    rw [mul_comm, mul_div_assoc]
    norm_num
  · intro k h0 h1
    have e1 : ((k : ℚ) / 1000) * 1000 = ((k : ℤ) : ℚ) := div_mul_cancel₀ _ (by norm_num)
    rw [decode_voltage, encode_voltage, e1, pyInt_intCast,
      fromBytesLE_pack16le k h0 (by omega)]
    have hc : ((k.toNat : ℕ) : ℚ) = ((k : ℤ) : ℚ) := by
      exact_mod_cast Int.toNat_of_nonneg h0
    rw [hc, sub_self, abs_zero]
    norm_num
  · intro k h0 h1
    have e1 : ((k : ℚ) / 1000) * 1000 = ((k : ℤ) : ℚ) := div_mul_cancel₀ _ (by norm_num)
    rw [decode_current, encode_current, e1, pyInt_intCast,
      fromBytesLESigned_pack16le k h0 (by omega), sub_self, abs_zero]
    norm_num
  · intro p h0 h1
    have hv : pyInt ((p : ℤ) : ℚ) = p := pyInt_intCast p
    simp only [decode_power, encode_power, hv]
    rw [if_neg (by omega : ¬ p < 0)]
    rw [if_neg (by omega : ¬ p > 65535)]
    rw [fromBytesLE_pack16le p h0 (by omega)]
    have hc : ((p.toNat : ℕ) : ℚ) = ((p : ℤ) : ℚ) := by
      exact_mod_cast Int.toNat_of_nonneg h0
    rw [hc]

/-- Witness for C3 amended at concrete in-range points, including the
float-sensitive grid points 0.29 °C and 1.001 V. -/
theorem C3_amended_witness :
    |decode_temp (encode_temperature (((29 : ℤ) : ℚ) / 100)) -
        ((29 : ℤ) : ℚ) / 100| ≤ 1 / 100
  ∧ decode_temp (encode_temperature ((327 : ℤ) : ℚ)) = ((327 : ℤ) : ℚ)
  ∧ |decode_voltage (encode_voltage (((1001 : ℤ) : ℚ) / 1000)) -
        ((1001 : ℤ) : ℚ) / 1000| ≤ 1 / 1000
  ∧ |decode_current (encode_current (((-32768 : ℤ) : ℚ) / 1000)) -
        ((-32768 : ℤ) : ℚ) / 1000| ≤ 1 / 1000
  ∧ decode_power (encode_power ((1000 : ℤ) : ℚ)) = ((1000 : ℤ) : ℚ) / 1000 :=
  ⟨C3_amended.1 29 (by norm_num) (by norm_num),
   C3_amended.2.1 327 (by norm_num) (by norm_num),
   C3_amended.2.2.1 1001 (by norm_num) (by norm_num),
   C3_amended.2.2.2.1 (-32768) (by norm_num) (by norm_num),
   C3_amended.2.2.2.2 1000 (by norm_num) (by norm_num)⟩

/-- A comma segment that assigns `pas` in the key:value loop
(`ble.py` 174–175): it has a colon and its key is `pas` or `rx`. -/
def segSetsPas (p : List Char) : Prop :=
  pyContains p ':' = true ∧ (segKey p = "pas".toList ∨ segKey p = "rx".toList)

/-- A comma segment that successfully assigns `speed`
(`ble.py` 176–180): colon present, key `speed`, value parses. -/
def segSetsSpeed (p : List Char) : Prop :=
  pyContains p ':' = true ∧ segKey p = "speed".toList ∧
  (pyFloat (segVal p)).isSome = true

/-- A comma segment that successfully assigns `c_range`
(`ble.py` 181–185): colon present, key `c_range`/`range`/`crange`,
value parses. -/
def segSetsRange (p : List Char) : Prop :=
  pyContains p ':' = true ∧
  (segKey p = "c_range".toList ∨ segKey p = "range".toList ∨
   segKey p = "crange".toList) ∧
  (pyFloat (segVal p)).isSome = true

instance (p : List Char) : Decidable (segSetsPas p) := by
  unfold segSetsPas; infer_instance

instance (p : List Char) : Decidable (segSetsSpeed p) := by
  unfold segSetsSpeed; infer_instance

instance (p : List Char) : Decidable (segSetsRange p) := by
  unfold segSetsRange; infer_instance

/-- The `pas` field after one loop iteration. -/
theorem kvStep_pas_eq (a : Cmd) (p : List Char) :
    (kvStep a p).pas = if segSetsPas p then String.mk (segVal p) else a.pas := by
  unfold kvStep
  by_cases h1 : pyContains p ':' = true
  case neg => simp [segSetsPas, h1]
  case pos =>
    by_cases h2 : segKey p = ['p', 'a', 's'] ∨ segKey p = ['r', 'x']
    · simp [h1, h2, segSetsPas]
    · by_cases h3 : segKey p = ['s', 'p', 'e', 'e', 'd']
      · rcases hq : pyFloat (segVal p) with _ | q <;>
          simp [h1, h2, h3, hq, segSetsPas]
      · by_cases h4 : segKey p = ['c', '_', 'r', 'a', 'n', 'g', 'e'] ∨
            segKey p = ['r', 'a', 'n', 'g', 'e'] ∨
            segKey p = ['c', 'r', 'a', 'n', 'g', 'e']
        · rcases hq : pyFloat (segVal p) with _ | q <;>
            simp [h1, h2, h3, h4, hq, segSetsPas]
        · simp [h1, h2, h3, h4, segSetsPas]

/-- The `speed` field after one loop iteration. -/
theorem kvStep_speed_eq (a : Cmd) (p : List Char) :
    (kvStep a p).speed =
      if segSetsSpeed p then (pyFloat (segVal p)).getD 0 else a.speed := by
  unfold kvStep
  by_cases h1 : pyContains p ':' = true
  case neg => simp [segSetsSpeed, h1]
  case pos =>
    by_cases h2 : segKey p = ['p', 'a', 's'] ∨ segKey p = ['r', 'x']
    · have hk : ¬ segKey p = ['s', 'p', 'e', 'e', 'd'] := by
        rcases h2 with h | h <;> rw [h] <;> decide
      simp [h1, h2, segSetsSpeed, hk]
    · by_cases h3 : segKey p = ['s', 'p', 'e', 'e', 'd']
      · rcases hq : pyFloat (segVal p) with _ | q <;>
          simp [h1, h2, h3, hq, segSetsSpeed]
      · by_cases h4 : segKey p = ['c', '_', 'r', 'a', 'n', 'g', 'e'] ∨
            segKey p = ['r', 'a', 'n', 'g', 'e'] ∨
            segKey p = ['c', 'r', 'a', 'n', 'g', 'e']
        · rcases hq : pyFloat (segVal p) with _ | q <;>
            simp [h1, h2, h3, h4, hq, segSetsSpeed]
        · simp [h1, h2, h3, h4, segSetsSpeed]

/-- The `c_range` field after one loop iteration. -/
theorem kvStep_range_eq (a : Cmd) (p : List Char) :
    (kvStep a p).c_range =
      if segSetsRange p then (pyFloat (segVal p)).getD 0 else a.c_range := by
  unfold kvStep
  by_cases h1 : pyContains p ':' = true
  case neg => simp [segSetsRange, h1]
  case pos =>
    by_cases h2 : segKey p = ['p', 'a', 's'] ∨ segKey p = ['r', 'x']
    · have hk : ¬ (segKey p = ['c', '_', 'r', 'a', 'n', 'g', 'e'] ∨
          segKey p = ['r', 'a', 'n', 'g', 'e'] ∨
          segKey p = ['c', 'r', 'a', 'n', 'g', 'e']) := by
        rcases h2 with h | h <;> rw [h] <;> decide
      simp [h1, h2, segSetsRange, hk]
    · by_cases h3 : segKey p = ['s', 'p', 'e', 'e', 'd']
      · have hk : ¬ (segKey p = ['c', '_', 'r', 'a', 'n', 'g', 'e'] ∨
            segKey p = ['r', 'a', 'n', 'g', 'e'] ∨
            segKey p = ['c', 'r', 'a', 'n', 'g', 'e']) := by
          rw [h3]; decide
        rcases hq : pyFloat (segVal p) with _ | q <;>
          simp [h1, h2, h3, hq, segSetsRange, hk]
      · by_cases h4 : segKey p = ['c', '_', 'r', 'a', 'n', 'g', 'e'] ∨
            segKey p = ['r', 'a', 'n', 'g', 'e'] ∨
            segKey p = ['c', 'r', 'a', 'n', 'g', 'e']
        · rcases hq : pyFloat (segVal p) with _ | q <;>
            simp [h1, h2, h3, h4, hq, segSetsRange]
        · simp [h1, h2, h3, h4, segSetsRange]

/-- Two commands with equal fields are equal. -/
theorem cmd_eq (c d : Cmd) (h1 : c.pas = d.pas) (h2 : c.speed = d.speed)
    (h3 : c.c_range = d.c_range) : c = d := by
  cases c; cases d; simp_all

/-- Running the loop over segments none of which successfully assigns
`speed` leaves `speed` untouched. -/
theorem kvFold_speed_of_none (l : List (List Char)) (a : Cmd)
    (h : ∀ r ∈ l, ¬ segSetsSpeed r) :
    (List.foldl kvStep a l).speed = a.speed := by
  induction l generalizing a with
  | nil => rfl
  | cons r l ih =>
    rw [List.foldl_cons, ih _ (fun x hx => h x (List.mem_cons_of_mem _ hx)),
      kvStep_speed_eq, if_neg (h r (List.mem_cons_self _ _))]

/-- Same for `c_range`. -/
theorem kvFold_range_of_none (l : List (List Char)) (a : Cmd)
    (h : ∀ r ∈ l, ¬ segSetsRange r) :
    (List.foldl kvStep a l).c_range = a.c_range := by
  induction l generalizing a with
  | nil => rfl
  | cons r l ih =>
    rw [List.foldl_cons, ih _ (fun x hx => h x (List.mem_cons_of_mem _ hx)),
      kvStep_range_eq, if_neg (h r (List.mem_cons_self _ _))]

/-- Same for `pas`. -/
theorem kvFold_pas_of_none (l : List (List Char)) (a : Cmd)
    (h : ∀ r ∈ l, ¬ segSetsPas r) :
    (List.foldl kvStep a l).pas = a.pas := by
  induction l generalizing a with
  | nil => rfl
  | cons r l ih =>
    rw [List.foldl_cons, ih _ (fun x hx => h x (List.mem_cons_of_mem _ hx)),
      kvStep_pas_eq, if_neg (h r (List.mem_cons_self _ _))]

/-- C10: in the key:value framing the loop processes the comma-split,
stripped segments left to right, so when a recognized key occurs in
several segments the last successful occurrence wins (for `speed`, the
`c_range` family and `pas`/`rx` alike); segments without a colon,
segments with unrecognized keys, and numeric segments whose value fails
to parse are skipped without raising and without disturbing the values
accumulated so far. -/
theorem C10_kv_last_wins :
    (∀ s, kvInterpret s = List.foldl kvStep initCmd ((pySplit ',' s).map pyStrip))
  ∧ (∀ a p, pyContains p ':' = false → kvStep a p = a)
  ∧ (∀ a p, pyContains p ':' = true →
        segKey p ≠ "pas".toList → segKey p ≠ "rx".toList →
        segKey p ≠ "speed".toList → segKey p ≠ "c_range".toList →
        segKey p ≠ "range".toList → segKey p ≠ "crange".toList →
        kvStep a p = a)
  ∧ (∀ a p, pyContains p ':' = true → segKey p = "speed".toList →
        pyFloat (segVal p) = none → kvStep a p = a)
  ∧ (∀ a p, pyContains p ':' = true →
        (segKey p = "c_range".toList ∨ segKey p = "range".toList ∨
         segKey p = "crange".toList) →
        pyFloat (segVal p) = none → kvStep a p = a)
  ∧ (∀ l1 p l2 q, segSetsSpeed p → pyFloat (segVal p) = some q →
        (∀ r ∈ l2, ¬ segSetsSpeed r) →
        (List.foldl kvStep initCmd (l1 ++ p :: l2)).speed = q)
  ∧ (∀ l1 p l2 q, segSetsRange p → pyFloat (segVal p) = some q →
        (∀ r ∈ l2, ¬ segSetsRange r) →
        (List.foldl kvStep initCmd (l1 ++ p :: l2)).c_range = q)
  ∧ (∀ l1 p l2, segSetsPas p → (∀ r ∈ l2, ¬ segSetsPas r) →
        (List.foldl kvStep initCmd (l1 ++ p :: l2)).pas = String.mk (segVal p)) := by
  refine ⟨fun s => rfl, ?_, ?_, ?_, ?_, ?_, ?_, ?_⟩
  · intro a p h
    have h1 : ¬ pyContains p ':' = true := by simp [h]
    refine cmd_eq _ _ ?_ ?_ ?_
    · rw [kvStep_pas_eq, if_neg (fun hx => h1 hx.1)]
    · rw [kvStep_speed_eq, if_neg (fun hx => h1 hx.1)]
    · rw [kvStep_range_eq, if_neg (fun hx => h1 hx.1)]
  · intro a p h1 hp hr hs hc1 hc2 hc3
    have npas : ¬ segSetsPas p := by
      rintro ⟨-, h | h⟩
      exacts [hp h, hr h]
    have nspd : ¬ segSetsSpeed p := by
      rintro ⟨-, h, -⟩
      exact hs h
    have nrng : ¬ segSetsRange p := by
      rintro ⟨-, h | h | h, -⟩
      exacts [hc1 h, hc2 h, hc3 h]
    refine cmd_eq _ _ ?_ ?_ ?_
    · rw [kvStep_pas_eq, if_neg npas]
    · rw [kvStep_speed_eq, if_neg nspd]
    · rw [kvStep_range_eq, if_neg nrng]
  · intro a p h1 hk hq
    have npas : ¬ segSetsPas p := by
      rintro ⟨-, h | h⟩ <;> rw [hk] at h <;> exact absurd h (by decide)
    have nspd : ¬ segSetsSpeed p := by
      rintro ⟨-, -, h⟩
      rw [hq] at h
      exact absurd h (by decide)
    have nrng : ¬ segSetsRange p := by
      rintro ⟨-, h | h | h, -⟩ <;> rw [hk] at h <;> exact absurd h (by decide)
    refine cmd_eq _ _ ?_ ?_ ?_
    · rw [kvStep_pas_eq, if_neg npas]
    · rw [kvStep_speed_eq, if_neg nspd]
    · rw [kvStep_range_eq, if_neg nrng]
  · intro a p h1 hk hq
    have npas : ¬ segSetsPas p := by
      rintro ⟨-, h | h⟩ <;> rcases hk with hk | hk | hk <;> rw [hk] at h <;>
        exact absurd h (by decide)
    have nspd : ¬ segSetsSpeed p := by
      rintro ⟨-, h, -⟩
      rcases hk with hk | hk | hk <;> rw [hk] at h <;> exact absurd h (by decide)
    have nrng : ¬ segSetsRange p := by
      rintro ⟨-, -, h⟩
      rw [hq] at h
      exact absurd h (by decide)
    refine cmd_eq _ _ ?_ ?_ ?_
    · rw [kvStep_pas_eq, if_neg npas]
    · rw [kvStep_speed_eq, if_neg nspd]
    · rw [kvStep_range_eq, if_neg nrng]
  · intro l1 p l2 q hp hq h2
    rw [List.foldl_append, List.foldl_cons, kvFold_speed_of_none l2 _ h2,
      kvStep_speed_eq, if_pos hp, hq]
    rfl
  · intro l1 p l2 q hp hq h2
    rw [List.foldl_append, List.foldl_cons, kvFold_range_of_none l2 _ h2,
      kvStep_range_eq, if_pos hp, hq]
    rfl
  · intro l1 p l2 hp h2
    rw [List.foldl_append, List.foldl_cons, kvFold_pas_of_none l2 _ h2,
      kvStep_pas_eq, if_pos hp]

/-- Witness for C10 at concrete segment lists: in
`"speed:1,speed:2,speed:x,foo,bar:3"` the last parseable `speed`
segment (`speed:2`) wins (2 = `mkRat 2 1`); in `"pas:A,rx:B"` the later
`rx` segment wins; a colonless segment is skipped. -/
theorem C10_kv_last_wins_witness :
    (List.foldl kvStep initCmd
        (["speed:1".toList] ++ "speed:2".toList ::
          ["speed:x".toList, "foo".toList, "bar:3".toList])).speed = mkRat 2 1
  ∧ (List.foldl kvStep initCmd
        (["pas:A".toList] ++ "rx:B".toList :: [])).pas =
      String.mk (segVal "rx:B".toList)
  ∧ kvStep initCmd "foo".toList = initCmd :=
  ⟨C10_kv_last_wins.2.2.2.2.2.1 ["speed:1".toList] "speed:2".toList
      ["speed:x".toList, "foo".toList, "bar:3".toList] (mkRat 2 1)
      (by decide) (by decide) (by decide),
   C10_kv_last_wins.2.2.2.2.2.2.2 ["pas:A".toList] "rx:B".toList []
      (by decide) (by decide),
   C10_kv_last_wins.2.1 initCmd "foo".toList (by decide)⟩
